import Mathlib

/-
Shallow embedding of the ORKL MCP server (src/orkl/server.py) and proofs of
the specified properties of its cache store, resource addresser, and tool
dispatcher.

Modelling conventions:
- JSON values are a mutual inductive (`Json` / `JsonList` / `JsonFields`);
  objects keep their fields in insertion order, as parsed Python dicts do.
- Python dicts used as stores are association lists `List (String × Json)`
  with Python's update semantics: assigning an existing key keeps its
  position, a new key is appended (`dictSet`).
- `raise ValueError(...)` / `KeyError` / `IndexError` become `Except Err`.
- The HTTP client is a function from request URL to a `Response` record
  (status code, parsed JSON body, raw text); the dispatcher records every
  URL it requests so that "zero upstream calls" is expressible.
- Machine integers do not occur; ids and all claim-relevant fields are
  strings, and JSON numbers are modelled as `Int`.
-/

namespace Orkl

mutual
/-- A JSON value as parsed by Python's `json` module (object fields in
insertion order). -/
inductive Json where
  | null
  | bool (b : Bool)
  | num (n : Int)
  | str (s : String)
  | arr (elements : JsonList)
  | obj (fields : JsonFields)

/-- A JSON array's elements. -/
inductive JsonList where
  | nil
  | cons (hd : Json) (tl : JsonList)

/-- A JSON object's fields, in insertion order. -/
inductive JsonFields where
  | nil
  | cons (key : String) (val : Json) (tl : JsonFields)
end

/-- Convert a `JsonList` to a Lean list, for iterating over `data` arrays. -/
def JsonList.toList : JsonList → List Json
  | .nil => []
  | .cons x xs => x :: JsonList.toList xs

/-- Lookup of a key in a JSON object's field list (first match). -/
def JsonFields.lookup (k : String) : JsonFields → Option Json
  | .nil => none
  | .cons k2 v fs => if k2 = k then some v else JsonFields.lookup k fs

/-- Python `d.get(k, default)` on a parsed JSON envelope; the source only
applies `.get` to dict envelopes, so a non-object yields the default. -/
def jGetD (j : Json) (k : String) (dflt : Json) : Json :=
  match j with
  | .obj fs => (fs.lookup k).getD dflt
  | _ => dflt

/-- The value of a `data` field expected to be an array (list operations);
a non-array yields no elements. -/
def jArr (j : Json) : List Json :=
  match j with
  | .arr xs => xs.toList
  | _ => []

/-- Fault conditions: `ValueError`s raised by the handlers, plus the
`KeyError` / `IndexError` Python raises on subscripting. -/
inductive Err where
  | invalidAddress (scheme : String)
  | unknownResourceType (t : String)
  | missingArgument (arg : String)
  | unknownTool (name : String)
  | keyError (k : String)
  | indexError
deriving DecidableEq

/-- Python `d[k]` on a parsed JSON value: `KeyError` when the key is absent
or the value is not an object. -/
def jIndex (j : Json) (k : String) : Except Err Json :=
  match j with
  | .obj fs =>
      match fs.lookup k with
      | some v => Except.ok v
      | none => Except.error (Err.keyError k)
  | _ => Except.error (Err.keyError k)

/-- A run of `n` spaces, for `json.dumps(.., indent=2)` indentation. -/
def spaces (n : Nat) : String := String.mk (List.replicate n ' ')

/-- JSON string escaping as performed by `json.dumps` for the characters
that can occur here (quote, backslash, and whitespace controls). -/
def escChar (c : Char) : String :=
  if c = '"' then "\\\""
  else if c = '\\' then "\\\\"
  else if c = '\n' then "\\n"
  else if c = '\t' then "\\t"
  else if c = '\r' then "\\r"
  else String.singleton c

/-- Escape a whole string for JSON output. -/
def escStr (s : String) : String := String.join (s.data.map escChar)

mutual
/-- Python `json.dumps(value, indent=2)` at indentation level `ind`:
empty containers render inline, non-empty ones one element per line,
each level indented two further spaces, with `": "` after keys. -/
def dumpsV (ind : Nat) : Json → String
  | .null => "null"
  | .bool true => "true"
  | .bool false => "false"
  | .num n => toString n
  | .str s => "\"" ++ escStr s ++ "\""
  | .arr .nil => "[]"
  | .arr xs => "[\n" ++ dumpsItems (ind + 2) xs ++ "\n" ++ spaces ind ++ "]"
  | .obj .nil => "\x7b\x7d"
  | .obj fs => "\x7b\n" ++ dumpsFields (ind + 2) fs ++ "\n" ++ spaces ind ++ "\x7d"

/-- Array elements of `json.dumps(.., indent=2)`, comma-and-newline
separated, each on its own indented line. -/
def dumpsItems (ind : Nat) : JsonList → String
  | .nil => ""
  | .cons x .nil => spaces ind ++ dumpsV ind x
  | .cons x (.cons y ys) =>
      spaces ind ++ dumpsV ind x ++ ",\n" ++ dumpsItems ind (.cons y ys)

/-- Object fields of `json.dumps(.., indent=2)`. -/
def dumpsFields (ind : Nat) : JsonFields → String
  | .nil => ""
  | .cons k v .nil => spaces ind ++ "\"" ++ escStr k ++ "\": " ++ dumpsV ind v
  | .cons k v (.cons k2 v2 fs) =>
      spaces ind ++ "\"" ++ escStr k ++ "\": " ++ dumpsV ind v ++ ",\n" ++
        dumpsFields ind (.cons k2 v2 fs)
end

/-- The `json.dumps(value, indent=2)` serialization used by the handlers. -/
def pyDumps (j : Json) : String := dumpsV 0 j

mutual
/-- Python `repr` of a parsed-JSON value (used by `str` on containers):
single-quoted strings, bracketed containers with `", "` separators. -/
def pyReprV : Json → String
  | .null => "None"
  | .bool true => "True"
  | .bool false => "False"
  | .num n => toString n
  | .str s => "\x27" ++ s ++ "\x27"
  | .arr xs => "[" ++ pyReprItems xs ++ "]"
  | .obj fs => "\x7b" ++ pyReprFields fs ++ "\x7d"

/-- Comma-separated `repr` of array elements. -/
def pyReprItems : JsonList → String
  | .nil => ""
  | .cons x .nil => pyReprV x
  | .cons x (.cons y ys) => pyReprV x ++ ", " ++ pyReprItems (.cons y ys)

/-- Comma-separated `repr` of object fields. -/
def pyReprFields : JsonFields → String
  | .nil => ""
  | .cons k v .nil => "\x27" ++ k ++ "\x27: " ++ pyReprV v
  | .cons k v (.cons k2 v2 fs) =>
      "\x27" ++ k ++ "\x27: " ++ pyReprV v ++ ", " ++
        pyReprFields (.cons k2 v2 fs)
end

/-- Python `str(value)` as used by f-string interpolation on parsed-JSON
values: strings verbatim, scalars per Python, containers via `repr`. -/
def pyStr : Json → String
  | .null => "None"
  | .bool true => "True"
  | .bool false => "False"
  | .num n => toString n
  | .str s => s
  | .arr xs => "[" ++ pyReprItems xs ++ "]"
  | .obj fs => "\x7b" ++ pyReprFields fs ++ "\x7d"

/-- Association-list lookup modelling Python `dict.get` / `dict[k]`
(keys are unique in a Python dict, so first match suffices). -/
def dictGet {α : Type} (d : List (String × α)) (k : String) : Option α :=
  match d with
  | [] => none
  | (k2, v) :: rest => if k2 = k then some v else dictGet rest k

/-- Python `d[k] = v` on an insertion-ordered dict: an existing key keeps
its position, a new key is appended at the end. -/
def dictSet {α : Type} (d : List (String × α)) (k : String) (v : α) :
    List (String × α) :=
  match d with
  | [] => [(k, v)]
  | (k2, v2) :: rest =>
      if k2 = k then (k, v) :: rest else (k2, v2) :: dictSet rest k v

/-- The module-level `cache` dict: one insertion-ordered id-to-details map
per entity kind (`threat_reports`, `threat_actors`, `sources`). -/
structure Cache where
  threat_reports : List (String × Json)
  threat_actors : List (String × Json)
  sources : List (String × Json)

/-- The cache as initialized at module load: all three maps empty. -/
def emptyCache : Cache := ⟨[], [], []⟩

/-- A resource URI as the read handler consumes it: its scheme token and
its path. The address `threat://<kind>/<id>` of the spec carries the kind
and the id as its two path segments, so it is modelled as scheme `threat`
with path `/<kind>/<id>`. -/
structure Uri where
  scheme : String
  path : String
deriving DecidableEq

/-- The `threat://<kind>/<id>` address for a kind segment and an id. -/
def threatUri (kind i : String) : Uri :=
  ⟨"threat", "/" ++ kind ++ "/" ++ i⟩

/-- An entry of the `list_resources` result (`types.Resource`). -/
structure Resource where
  uri : String
  name : String
  description : String
  mimeType : String
deriving DecidableEq

/-- A `types.TextContent` block of a tool result. -/
structure TextContent where
  type : String
  text : String
deriving DecidableEq

/-- An upstream HTTP response as the handler consumes it: `status_code`,
the parsed `.json()` body, and the raw `.text`. -/
structure Response where
  status_code : Nat
  body : Json
  text : String

/-- The upstream HTTP client, as a map from request URL to response. -/
abbrev Client := String → Response

/-- Python `str.strip(c)` on character lists: drop `c` from both ends. -/
def stripChars (c : Char) (l : List Char) : List Char :=
  ((l.dropWhile (· == c)).reverse.dropWhile (· == c)).reverse

/-- Python `s.strip("/")` (single strip character suffices here). -/
def pyStrip (s : String) (c : Char) : String := String.mk (stripChars c s.data)

/-- Worker for `str.split(sep)`: `acc` holds the current segment reversed. -/
def splitCharsAux (sep : Char) : List Char → List Char → List String
  | [], acc => [String.mk acc.reverse]
  | c :: cs, acc =>
      if c = sep then String.mk acc.reverse :: splitCharsAux sep cs []
      else splitCharsAux sep cs (c :: acc)

/-- Python `s.split(sep)` for a one-character separator (never empty:
splitting the empty string yields `[""]`). -/
def pySplit (s : String) (sep : Char) : List String :=
  splitCharsAux sep s.data []

/-- Per-kind render constants of `handle_list_resources`: URI segment,
name label, description opening, and the display field subscripted. -/
def resourcesFor (kind label descPre field : String) :
    List (String × Json) → Except Err (List Resource)
  | [] => Except.ok []
  | (i, details) :: rest => do
      let v ← jIndex details field
      let tail ← resourcesFor kind label descPre field rest
      Except.ok (⟨"threat://" ++ kind ++ "/" ++ i, label ++ pyStr v,
        descPre ++ pyStr v, "application/json"⟩ :: tail)

/-- Embedding of `handle_list_resources`: one resource per cached entry,
reports then actors then sources, each map in insertion order; the
subscripts `details["title"]` / `details["main_name"]` / `details["name"]`
raise `KeyError` when the display field is absent. -/
def handle_list_resources (cache : Cache) : Except Err (List Resource) := do
  let reports ← resourcesFor "report" "Threat Report: " "Threat report titled "
    "title" cache.threat_reports
  let actors ← resourcesFor "actor" "Threat Actor: " "Threat actor known as "
    "main_name" cache.threat_actors
  let fromSources ← resourcesFor "source" "Source: " "Source "
    "name" cache.sources
  Except.ok (reports ++ actors ++ fromSources)

/-- Embedding of `handle_read_resource`: reject a scheme other than
`threat`, split the stripped path on `/`, subscript the first two parts
(Python raises `IndexError` when there are fewer than two), then serve the
cached entry of the decoded kind, `{}` when absent, or reject an unknown
resource type. -/
def handle_read_resource (cache : Cache) (uri : Uri) : Except Err String :=
  if uri.scheme ≠ "threat" then Except.error (Err.invalidAddress uri.scheme)
  else
    match pySplit (pyStrip uri.path '/') '/' with
    | resource_type :: resource_id :: _ =>
        if resource_type = "report" then
          Except.ok (pyDumps ((dictGet cache.threat_reports resource_id).getD (Json.obj .nil)))
        else if resource_type = "actor" then
          Except.ok (pyDumps ((dictGet cache.threat_actors resource_id).getD (Json.obj .nil)))
        else if resource_type = "source" then
          Except.ok (pyDumps ((dictGet cache.sources resource_id).getD (Json.obj .nil)))
        else Except.error (Err.unknownResourceType resource_type)
    | _ => Except.error Err.indexError

/-- The fixed upstream base address (`ORKL_BASE_URL`). -/
def ORKL_BASE_URL : String := "https://orkl.eu/api/v1"

/-- Outcome of one `handle_call_tool` invocation: the cache afterwards
(mutations before a raise are kept, as in Python), the URLs requested
upstream in order, and either the returned content blocks or the fault
raised. -/
structure ToolStep where
  cache : Cache
  calls : List String
  result : Except Err (List TextContent)

/-- Write a report into `cache["threat_reports"]` under a given key. -/
def putReport (c : Cache) (k : String) (v : Json) : Cache :=
  { c with threat_reports := dictSet c.threat_reports k v }

/-- Write an actor into `cache["threat_actors"]` under a given key. -/
def putActor (c : Cache) (k : String) (v : Json) : Cache :=
  { c with threat_actors := dictSet c.threat_actors k v }

/-- Write a source into `cache["sources"]` under a given key. -/
def putSource (c : Cache) (k : String) (v : Json) : Cache :=
  { c with sources := dictSet c.sources k v }

/-- The caching loop of a list operation (`for item in items:
cache[kind][item["id"]] = item`): each element is stored under its own
`id` field; a missing `id` raises `KeyError` mid-loop, keeping the
elements already written. Keys of the Python dict are the raw `id`
values; ids are strings in the upstream catalog, rendered by `pyStr`. -/
def cacheLoop (upd : Cache → String → Json → Cache) :
    Cache → List Json → Cache × Option Err
  | c, [] => (c, none)
  | c, item :: rest =>
      match jIndex item "id" with
      | Except.error e => (c, some e)
      | Except.ok v => cacheLoop upd (upd c (pyStr v) item) rest

/-- The summary-line comprehension of a list operation: one line
`ID: <id>, <label>: <display field>` per element, `KeyError` when a
subscripted field is absent. -/
def summaryLines (label field : String) : List Json → Except Err (List String)
  | [] => Except.ok []
  | item :: rest => do
      let i ← jIndex item "id"
      let v ← jIndex item field
      let tail ← summaryLines label field rest
      Except.ok (("ID: " ++ pyStr i ++ ", " ++ label ++ ": " ++ pyStr v) :: tail)

/-- The `data` array of a list-operation response
(`response.json().get("data", [])`). -/
def dataItems (r : Response) : List Json :=
  jArr (jGetD r.body "data" (Json.arr .nil))

/-- The `data` object of a detail-operation response
(`response.json().get("data", \x7b\x7d)`). -/
def dataObject (r : Response) : Json :=
  jGetD r.body "data" (Json.obj .nil)

/-- Shared body of the three list-operation branches: on status 200, cache
every element of `data` (default `[]`) keyed by its `id`, then return the
newline-joined summary lines; on any other status return the
`Error: <status> <text>` block with the cache untouched. The caching loop
runs before the line comprehension, as in the source. -/
def listOp (cache : Cache) (url : String) (r : Response)
    (upd : Cache → String → Json → Cache) (label field : String) : ToolStep :=
  if r.status_code = 200 then
    let items := dataItems r
    match cacheLoop upd cache items with
    | (c2, some e) => ⟨c2, [url], Except.error e⟩
    | (c2, none) =>
        match summaryLines label field items with
        | Except.error e => ⟨c2, [url], Except.error e⟩
        | Except.ok lines =>
            ⟨c2, [url], Except.ok [⟨"text", String.intercalate "\n" lines⟩]⟩
  else
    ⟨cache, [url], Except.ok [⟨"text",
      "Error: " ++ toString r.status_code ++ " " ++ r.text⟩]⟩

/-- Shared body of the three detail-operation branches: on status 200,
store `data` (default `{}`) under the supplied identifier and return its
pretty-printed JSON; otherwise the `Error: <status> <text>` block. -/
def detailOp (cache : Cache) (url : String) (r : Response)
    (upd : Cache → String → Json → Cache) (theId : String) : ToolStep :=
  if r.status_code = 200 then
    let details := dataObject r
    ⟨upd cache theId details, [url], Except.ok [⟨"text", pyDumps details⟩]⟩
  else
    ⟨cache, [url], Except.ok [⟨"text",
      "Error: " ++ toString r.status_code ++ " " ++ r.text⟩]⟩

/-- Embedding of `handle_call_tool`: the six-way name dispatch. A detail
tool first reads its identifier argument and raises
`ValueError("... is required.")` on a falsy value (absent or empty) before
any request; an unrecognized name raises `ValueError("Unknown tool: ...")`
with no request made. -/
def handle_call_tool (client : Client) (name : String)
    (arguments : List (String × String)) (cache : Cache) : ToolStep :=
  if name = "fetch_latest_threat_reports" then
    let url := ORKL_BASE_URL ++ "/library/entries?limit=5&order_by=created_at&order=desc"
    listOp cache url (client url) putReport "Title" "title"
  else if name = "fetch_threat_report_details" then
    match dictGet arguments "report_id" with
    | none => ⟨cache, [], Except.error (Err.missingArgument "report_id")⟩
    | some report_id =>
        if report_id = "" then
          ⟨cache, [], Except.error (Err.missingArgument "report_id")⟩
        else
          let url := ORKL_BASE_URL ++ "/library/entry/" ++ report_id
          detailOp cache url (client url) putReport report_id
  else if name = "fetch_threat_actors" then
    let url := ORKL_BASE_URL ++ "/ta/entries"
    listOp cache url (client url) putActor "Name" "main_name"
  else if name = "fetch_threat_actor_details" then
    match dictGet arguments "actor_id" with
    | none => ⟨cache, [], Except.error (Err.missingArgument "actor_id")⟩
    | some actor_id =>
        if actor_id = "" then
          ⟨cache, [], Except.error (Err.missingArgument "actor_id")⟩
        else
          let url := ORKL_BASE_URL ++ "/ta/entry/" ++ actor_id
          detailOp cache url (client url) putActor actor_id
  else if name = "fetch_sources" then
    let url := ORKL_BASE_URL ++ "/source/entries"
    listOp cache url (client url) putSource "Name" "name"
  else if name = "fetch_source_details" then
    match dictGet arguments "source_id" with
    | none => ⟨cache, [], Except.error (Err.missingArgument "source_id")⟩
    | some source_id =>
        if source_id = "" then
          ⟨cache, [], Except.error (Err.missingArgument "source_id")⟩
        else
          let url := ORKL_BASE_URL ++ "/source/entry/" ++ source_id
          detailOp cache url (client url) putSource source_id
  else ⟨cache, [], Except.error (Err.unknownTool name)⟩

/-- The closed set of entity kinds (`report | actor | source`). -/
inductive EntityKind where
  | report
  | actor
  | source
deriving DecidableEq

/-- The kind's path segment in a resource address. -/
def EntityKind.seg : EntityKind → String
  | .report => "report"
  | .actor => "actor"
  | .source => "source"

/-- The kind's map inside the cache. -/
def EntityKind.store : EntityKind → Cache → List (String × Json)
  | .report => Cache.threat_reports
  | .actor => Cache.threat_actors
  | .source => Cache.sources

/-- The kind's cache-write operation. -/
def EntityKind.put : EntityKind → Cache → String → Json → Cache
  | .report => putReport
  | .actor => putActor
  | .source => putSource

/-- The kind's detail tool name. -/
def EntityKind.detailTool : EntityKind → String
  | .report => "fetch_threat_report_details"
  | .actor => "fetch_threat_actor_details"
  | .source => "fetch_source_details"

/-- The kind's required detail-tool identifier argument. -/
def EntityKind.detailArg : EntityKind → String
  | .report => "report_id"
  | .actor => "actor_id"
  | .source => "source_id"

/-- The URL a detail tool requests for a given identifier. -/
def EntityKind.detailUrl (k : EntityKind) (i : String) : String :=
  match k with
  | .report => ORKL_BASE_URL ++ "/library/entry/" ++ i
  | .actor => ORKL_BASE_URL ++ "/ta/entry/" ++ i
  | .source => ORKL_BASE_URL ++ "/source/entry/" ++ i

/-- The kind's list tool name. -/
def EntityKind.listTool : EntityKind → String
  | .report => "fetch_latest_threat_reports"
  | .actor => "fetch_threat_actors"
  | .source => "fetch_sources"

/-- The URL a list tool requests. -/
def EntityKind.listUrl : EntityKind → String
  | .report => ORKL_BASE_URL ++ "/library/entries?limit=5&order_by=created_at&order=desc"
  | .actor => ORKL_BASE_URL ++ "/ta/entries"
  | .source => ORKL_BASE_URL ++ "/source/entries"

/-- The kind's summary-line label (`Title` for reports, `Name` otherwise). -/
def EntityKind.label : EntityKind → String
  | .report => "Title"
  | .actor => "Name"
  | .source => "Name"

/-- The kind's display field. -/
def EntityKind.field : EntityKind → String
  | .report => "title"
  | .actor => "main_name"
  | .source => "name"

/-- An id that yields a well-formed two-segment address `threat://kind/id`:
nonempty and without a path separator. -/
def validId (s : String) : Prop := s.data ≠ [] ∧ '/' ∉ s.data

instance (s : String) : Decidable (validId s) := by
  unfold validId
  infer_instance

/-- Whether an `Except`-modelled computation succeeded. -/
def exOk {α : Type} : Except Err α → Bool
  | Except.ok _ => true
  | Except.error _ => false

/-- Whether subscripting a record by a field name would succeed. -/
def hasFieldB (j : Json) (f : String) : Bool := exOk (jIndex j f)

/-- The dispatcher name of a kind's list tool (`isList = true`) or detail
tool (`isList = false`), ranging over all six operations. -/
def toolNameOf (k : EntityKind) (isList : Bool) : String :=
  if isList then k.listTool else k.detailTool

/-- The URL the selected tool requests (a detail tool's URL carries its
supplied identifier argument). -/
def requestUrlOf (k : EntityKind) (isList : Bool)
    (args : List (String × String)) : String :=
  if isList then k.listUrl
  else k.detailUrl ((dictGet args k.detailArg).getD "")

/-- Argument validity for the selected tool: list tools take none, detail
tools need their identifier argument present and non-falsy. -/
def argsOkFor (k : EntityKind) (isList : Bool)
    (args : List (String × String)) : Prop :=
  isList = true ∨ ∃ i, dictGet args k.detailArg = some i ∧ i ≠ ""

/-- A list element of the claims: its `id` and the given display field
both present. -/
def elementOkB (field : String) (e : Json) : Bool :=
  hasFieldB e "id" && hasFieldB e field

/-- The claim-side summary line `ID: <id>, <label>: <field>`. -/
def expectedLine (label field : String) (e : Json) : String :=
  "ID: " ++ pyStr (jGetD e "id" Json.null) ++ ", " ++ label ++ ": " ++
    pyStr (jGetD e field Json.null)

/-- The claim-side list-operation text: newline-joined summary lines in
array order. -/
def expectedListText (label field : String) (els : List Json) : String :=
  String.intercalate "\n" (els.map (expectedLine label field))

/-- The claim-side cache after a list operation: every element written
under its own `id` field, in array order. -/
def expectedListCache (upd : Cache → String → Json → Cache) (c : Cache)
    (els : List Json) : Cache :=
  els.foldl (fun acc e => upd acc (pyStr (jGetD e "id" Json.null)) e) c

/-- The claim-side rendering of one cached entry as a listed resource. -/
def renderEntry (kind label descPre field : String) (p : String × Json) :
    Resource :=
  ⟨"threat://" ++ kind ++ "/" ++ p.1,
   label ++ pyStr (jGetD p.2 field Json.null),
   descPre ++ pyStr (jGetD p.2 field Json.null), "application/json"⟩

/-- The claim-side `list_resources` output: all reports, then all actors,
then all sources, each map in insertion order, named
`Threat Report: <title>` / `Threat Actor: <main_name>` /
`Source: <name>`. -/
def expectedResources (c : Cache) : List Resource :=
  c.threat_reports.map
      (renderEntry "report" "Threat Report: " "Threat report titled " "title") ++
    c.threat_actors.map
      (renderEntry "actor" "Threat Actor: " "Threat actor known as " "main_name") ++
    c.sources.map (renderEntry "source" "Source: " "Source " "name")

/-- All entries of one cache map have the given display field. -/
def entriesOk (field : String) (l : List (String × Json)) : Prop :=
  ∀ p ∈ l, hasFieldB p.2 field = true

/-- Every cache map's entries carry their kind's display field. -/
def GoodCache (c : Cache) : Prop :=
  ∀ k : EntityKind, entriesOk k.field (k.store c)

/-- A cache map's keys are pairwise distinct. -/
def NodupKeys (l : List (String × Json)) : Prop := (l.map Prod.fst).Nodup

/-- Every cache map holds each id at most once. -/
def NodupCache (c : Cache) : Prop := ∀ k : EntityKind, NodupKeys (k.store c)

/-- Cache states reachable from the initial empty cache by sequences of
successful list-operation calls (any clients, any arguments). -/
inductive ListReached : Cache → Prop where
  | init : ListReached emptyCache
  | step (k : EntityKind) (client : Client) (args : List (String × String))
      (c : Cache) (hc : ListReached c)
      (hok : exOk (handle_call_tool client k.listTool args c).result = true) :
      ListReached (handle_call_tool client k.listTool args c).cache

/-- A stub upstream adapter answering every request with status 200 and a
`data` envelope holding `d`. -/
def envClient (d : Json) : Client :=
  fun _ => ⟨200, Json.obj (.cons "data" d .nil), ""⟩

/-- A stub upstream adapter answering every request with the given
non-success status and raw body text. -/
def errClient (code : Nat) (t : String) : Client :=
  fun _ => ⟨code, Json.obj .nil, t⟩

theorem dropWhile_ne_head (p : Char → Bool) (x : Char) (xs : List Char)
    (hx : ¬ p x = true) : List.dropWhile p (x :: xs) = x :: xs := by
  simp [List.dropWhile_cons, hx]

theorem stripChars_sep_cons (sep : Char) (l : List Char) :
    stripChars sep (sep :: l) = stripChars sep l := by
  unfold stripChars
  simp [List.dropWhile_cons]

theorem stripChars_eq_self (sep : Char) (l : List Char)
    (h1 : ∃ x xs, l = x :: xs ∧ x ≠ sep)
    (h2 : ∃ y ys, l.reverse = y :: ys ∧ y ≠ sep) :
    stripChars sep l = l := by
  obtain ⟨x, xs, rfl, hx⟩ := h1
  obtain ⟨y, ys, hy, hyne⟩ := h2
  unfold stripChars
  rw [dropWhile_ne_head _ _ _ (by simp [hx]), hy,
    dropWhile_ne_head _ _ _ (by simp [hyne]), ← hy, List.reverse_reverse]

theorem splitCharsAux_no_sep (sep : Char) (l : List Char) (h : sep ∉ l) :
    ∀ acc, splitCharsAux sep l acc = [String.mk (acc.reverse ++ l)] := by
  induction l with
  | nil => intro acc; simp [splitCharsAux]
  | cons c cs ih =>
      intro acc
      have hc : ¬ c = sep := by
        rintro rfl; exact h (List.mem_cons_self _ _)
      have hcs : sep ∉ cs := fun hm => h (List.mem_cons_of_mem _ hm)
      simp [splitCharsAux, hc, ih hcs, List.append_assoc]

theorem splitCharsAux_append_sep (sep : Char) (l1 l2 : List Char)
    (h : sep ∉ l1) : ∀ acc, splitCharsAux sep (l1 ++ sep :: l2) acc =
      String.mk (acc.reverse ++ l1) :: splitCharsAux sep l2 [] := by
  induction l1 with
  | nil => intro acc; simp [splitCharsAux]
  | cons c cs ih =>
      intro acc
      have hc : ¬ c = sep := by
        rintro rfl; exact h (List.mem_cons_self _ _)
      have hcs : sep ∉ cs := fun hm => h (List.mem_cons_of_mem _ hm)
      simp [splitCharsAux, hc, ih hcs, List.append_assoc]

theorem split_threat_path (kind i : String) (hk : validId kind)
    (hi : validId i) :
    pySplit (pyStrip ("/" ++ kind ++ "/" ++ i) '/') '/' = [kind, i] := by
  obtain ⟨hk1, hk2⟩ := hk
  obtain ⟨hi1, hi2⟩ := hi
  have hdata : ("/" ++ kind ++ "/" ++ i).data
      = '/' :: (kind.data ++ '/' :: i.data) := by
    show (((['/'] ++ kind.data) ++ ['/']) ++ i.data)
      = '/' :: (kind.data ++ '/' :: i.data)
    simp
  obtain ⟨a, ka, hka⟩ := List.exists_cons_of_ne_nil hk1
  obtain ⟨b, ib, hib⟩ := List.exists_cons_of_ne_nil
    (show i.data.reverse ≠ [] by simpa using hi1)
  have hb : b ≠ '/' := by
    intro hb
    exact hi2 (List.mem_reverse.mp (hib ▸ hb ▸ List.mem_cons_self _ _))
  have ha : a ≠ '/' := by
    intro hae
    exact hk2 (hka ▸ hae ▸ List.mem_cons_self _ _)
  have hstrip : stripChars '/' ('/' :: (kind.data ++ '/' :: i.data))
      = kind.data ++ '/' :: i.data := by
    rw [stripChars_sep_cons]
    apply stripChars_eq_self
    · exact ⟨a, ka ++ '/' :: i.data, by rw [hka]; simp, ha⟩
    · refine ⟨b, ib ++ '/' :: kind.data.reverse, ?_, hb⟩
      simp [List.reverse_append, hib]
  show splitCharsAux '/' (stripChars '/' ("/" ++ kind ++ "/" ++ i).data) []
    = [kind, i]
  rw [hdata, hstrip, splitCharsAux_append_sep '/' kind.data (i.data) hk2,
    splitCharsAux_no_sep '/' i.data hi2]
  simp

theorem handle_read_threat (c : Cache) (kind i : String) (hk : validId kind)
    (hi : validId i) :
    handle_read_resource c (threatUri kind i) =
      (if kind = "report" then
        Except.ok (pyDumps ((dictGet c.threat_reports i).getD (Json.obj .nil)))
      else if kind = "actor" then
        Except.ok (pyDumps ((dictGet c.threat_actors i).getD (Json.obj .nil)))
      else if kind = "source" then
        Except.ok (pyDumps ((dictGet c.sources i).getD (Json.obj .nil)))
      else Except.error (Err.unknownResourceType kind)) := by
  have h := split_threat_path kind i hk hi
  unfold handle_read_resource threatUri
  simp only at h ⊢
  rw [h]
  simp

theorem validId_ne_empty {i : String} (h : validId i) : i ≠ "" := by
  intro he
  apply h.1
  rw [he]

theorem jGetD_of_jIndex {j : Json} {f : String} {v : Json}
    (h : jIndex j f = Except.ok v) (dflt : Json) : jGetD j f dflt = v := by
  cases j with
  | obj fs =>
      cases hl : JsonFields.lookup f fs with
      | none => simp [jIndex, hl] at h
      | some w =>
          simp [jIndex, hl] at h
          simp [jGetD, hl, h]
  | null => simp [jIndex] at h
  | bool b => simp [jIndex] at h
  | num n => simp [jIndex] at h
  | str s => simp [jIndex] at h
  | arr xs => simp [jIndex] at h

theorem hasFieldB_ok {j : Json} {f : String} (h : hasFieldB j f = true) :
    ∃ v, jIndex j f = Except.ok v := by
  unfold hasFieldB at h
  cases hj : jIndex j f with
  | ok v => exact ⟨v, rfl⟩
  | error e => rw [hj] at h; simp [exOk] at h

theorem dictGet_dictSet_self {α : Type} (d : List (String × α)) (k : String)
    (v : α) : dictGet (dictSet d k v) k = some v := by
  induction d with
  | nil => simp [dictGet, dictSet]
  | cons p rest ih =>
      obtain ⟨k2, v2⟩ := p
      by_cases h : k2 = k
      · simp [dictSet, h, dictGet]
      · simp [dictSet, h, dictGet, ih]

theorem dictGet_dictSet_ne {α : Type} (d : List (String × α)) (k j : String)
    (v : α) (h : j ≠ k) : dictGet (dictSet d k v) j = dictGet d j := by
  induction d with
  | nil => simp [dictGet, dictSet, Ne.symm h]
  | cons p rest ih =>
      obtain ⟨k2, v2⟩ := p
      by_cases h2 : k2 = k
      · subst h2
        simp [dictSet, dictGet, Ne.symm h]
      · simp [dictSet, h2, dictGet, ih]

theorem dictSet_keys {α : Type} (d : List (String × α)) (k : String) (v : α) :
    (dictSet d k v).map Prod.fst =
      if k ∈ d.map Prod.fst then d.map Prod.fst
      else d.map Prod.fst ++ [k] := by
  induction d with
  | nil => simp [dictSet]
  | cons p rest ih =>
      obtain ⟨k2, v2⟩ := p
      by_cases h : k2 = k
      · subst h
        simp [dictSet]
      · by_cases hm : k ∈ rest.map Prod.fst
        · simp [dictSet, h, ih, hm, Ne.symm h]
        · simp [dictSet, h, ih, hm, Ne.symm h]

theorem NodupKeys_dictSet (l : List (String × Json)) (k : String) (v : Json)
    (h : NodupKeys l) : NodupKeys (dictSet l k v) := by
  unfold NodupKeys at *
  rw [dictSet_keys]
  by_cases hm : k ∈ l.map Prod.fst
  · simpa [hm] using h
  · simp [hm, List.nodup_append, h]

theorem mem_dictSet {α : Type} {d : List (String × α)} {k : String} {v : α}
    {p : String × α} (hp : p ∈ dictSet d k v) : p = (k, v) ∨ p ∈ d := by
  induction d with
  | nil => simp [dictSet] at hp; left; exact hp
  | cons q rest ih =>
      obtain ⟨k2, v2⟩ := q
      by_cases h : k2 = k
      · subst h
        rcases List.mem_cons.mp (by simpa [dictSet] using hp) with h1 | h1
        · left; exact h1
        · right; exact List.mem_cons_of_mem _ h1
      · rcases List.mem_cons.mp (by simpa [dictSet, h] using hp) with h1 | h1
        · right; rw [h1]; exact List.mem_cons_self _ _
        · rcases ih h1 with h2 | h2
          · left; exact h2
          · right; exact List.mem_cons_of_mem _ h2

theorem entriesOk_dictSet (f : String) (l : List (String × Json)) (k : String)
    (v : Json) (hl : entriesOk f l) (hv : hasFieldB v f = true) :
    entriesOk f (dictSet l k v) := by
  intro p hp
  rcases mem_dictSet hp with rfl | hmem
  · exact hv
  · exact hl p hmem

theorem store_put (k k2 : EntityKind) (c : Cache) (key : String) (v : Json) :
    k2.store (k.put c key v) =
      if k2 = k then dictSet (k2.store c) key v else k2.store c := by
  cases k <;> cases k2 <;>
    simp [EntityKind.put, EntityKind.store, putReport, putActor, putSource]

theorem detail_step (k : EntityKind) (client : Client)
    (args : List (String × String)) (c : Cache) (i : String)
    (harg : dictGet args k.detailArg = some i) (hne : i ≠ "") :
    handle_call_tool client k.detailTool args c =
      detailOp c (k.detailUrl i) (client (k.detailUrl i)) k.put i := by
  cases k <;>
    simp only [EntityKind.detailTool, EntityKind.detailArg,
      EntityKind.detailUrl, EntityKind.put] at harg ⊢ <;>
    simp [handle_call_tool, harg, hne, ORKL_BASE_URL]

theorem list_step (k : EntityKind) (client : Client)
    (args : List (String × String)) (c : Cache) :
    handle_call_tool client k.listTool args c =
      listOp c k.listUrl (client k.listUrl) k.put k.label k.field := by
  cases k <;>
    simp [handle_call_tool, EntityKind.listTool, EntityKind.listUrl,
      EntityKind.put, EntityKind.label, EntityKind.field, ORKL_BASE_URL]

theorem cacheLoop_all_ok (upd : Cache → String → Json → Cache)
    (items : List Json) (h : ∀ e ∈ items, hasFieldB e "id" = true) :
    ∀ c, cacheLoop upd c items = (expectedListCache upd c items, none) := by
  induction items with
  | nil => intro c; simp [cacheLoop, expectedListCache]
  | cons e rest ih =>
      intro c
      obtain ⟨v, hv⟩ := hasFieldB_ok (h e (List.mem_cons_self _ _))
      simp [cacheLoop, hv, expectedListCache, jGetD_of_jIndex hv] at ih ⊢
      exact ih (fun e2 he2 => h e2 (List.mem_cons_of_mem _ he2)) _

theorem summaryLines_all_ok (label field : String) (items : List Json)
    (h : ∀ e ∈ items, elementOkB field e = true) :
    summaryLines label field items =
      Except.ok (items.map (expectedLine label field)) := by
  induction items with
  | nil => rfl
  | cons e rest ih =>
      have he := h e (List.mem_cons_self _ _)
      rw [elementOkB, Bool.and_eq_true] at he
      obtain ⟨vi, hvi⟩ := hasFieldB_ok he.1
      obtain ⟨vf, hvf⟩ := hasFieldB_ok he.2
      simp [summaryLines, hvi, hvf, Bind.bind, Except.bind,
        ih (fun e2 he2 => h e2 (List.mem_cons_of_mem _ he2)), expectedLine,
        jGetD_of_jIndex hvi, jGetD_of_jIndex hvf]

theorem summaryLines_ok_mem (label field : String) (items : List Json)
    (lines : List String)
    (h : summaryLines label field items = Except.ok lines) :
    ∀ e ∈ items, hasFieldB e field = true := by
  induction items generalizing lines with
  | nil => intro e he; simp at he
  | cons e rest ih =>
      intro e2 he2
      cases hvi : jIndex e "id" with
      | error er => simp [summaryLines, hvi, Bind.bind, Except.bind] at h
      | ok vi =>
          cases hvf : jIndex e field with
          | error er =>
              simp [summaryLines, hvi, hvf, Bind.bind, Except.bind] at h
          | ok vf =>
              cases hrest : summaryLines label field rest with
              | error er =>
                  simp [summaryLines, hvi, hvf, hrest, Bind.bind,
                    Except.bind] at h
              | ok ls =>
                  rcases List.mem_cons.mp he2 with rfl | hmem
                  · simp [hasFieldB, hvf, exOk]
                  · exact ih ls hrest e2 hmem

theorem cacheLoop_preserves (k : EntityKind) (items : List Json)
    (hitems : ∀ e ∈ items, hasFieldB e k.field = true) :
    ∀ c c2 o, cacheLoop k.put c items = (c2, o) →
      GoodCache c → NodupCache c → GoodCache c2 ∧ NodupCache c2 := by
  induction items with
  | nil =>
      intro c c2 o h hg hn
      simp [cacheLoop] at h
      obtain ⟨rfl, rfl⟩ := h
      exact ⟨hg, hn⟩
  | cons e rest ih =>
      intro c c2 o h hg hn
      cases hvi : jIndex e "id" with
      | error er =>
          simp [cacheLoop, hvi] at h
          obtain ⟨rfl, rfl⟩ := h
          exact ⟨hg, hn⟩
      | ok vi =>
          simp [cacheLoop, hvi] at h
          refine ih (fun e2 he2 => hitems e2 (List.mem_cons_of_mem _ he2))
            _ _ _ h ?_ ?_
          · intro k2
            rw [store_put]
            by_cases hk : k2 = k
            · subst hk
              simp only [if_pos rfl]
              exact entriesOk_dictSet _ _ _ _ (hg k2)
                (hitems e (List.mem_cons_self _ _))
            · simpa [hk] using hg k2
          · intro k2
            rw [store_put]
            by_cases hk : k2 = k
            · subst hk
              simp only [if_pos rfl]
              exact NodupKeys_dictSet _ _ _ (hn k2)
            · simpa [hk] using hn k2

theorem resourcesFor_ok (kind label descPre field : String)
    (l : List (String × Json)) (h : entriesOk field l) :
    resourcesFor kind label descPre field l =
      Except.ok (l.map (renderEntry kind label descPre field)) := by
  induction l with
  | nil => rfl
  | cons p rest ih =>
      obtain ⟨i, d⟩ := p
      obtain ⟨v, hv⟩ := hasFieldB_ok (h (i, d) (List.mem_cons_self _ _))
      simp [resourcesFor, hv, Bind.bind, Except.bind,
        ih (fun q hq => h q (List.mem_cons_of_mem _ hq)), renderEntry,
        jGetD_of_jIndex hv]

theorem listReached_inv (c : Cache) (h : ListReached c) :
    GoodCache c ∧ NodupCache c := by
  induction h with
  | init =>
      constructor <;> intro k <;> cases k <;>
        simp [entriesOk, NodupKeys, emptyCache, EntityKind.store]
  | step k client args c hc hok ih =>
      rw [list_step] at hok ⊢
      obtain ⟨hg, hn⟩ := ih
      by_cases hs : (client k.listUrl).status_code = 200
      · cases hcl : cacheLoop k.put c (dataItems (client k.listUrl)) with
        | mk c2 o =>
            cases o with
            | some e => simp [listOp, hs, hcl, exOk] at hok
            | none =>
                cases hsl : summaryLines k.label k.field
                    (dataItems (client k.listUrl)) with
                | error er => simp [listOp, hs, hcl, hsl, exOk] at hok
                | ok lines =>
                    have hfields := summaryLines_ok_mem _ _ _ _ hsl
                    have hout := cacheLoop_preserves k _ hfields c c2 none
                      hcl hg hn
                    simpa [listOp, hs, hcl, hsl] using hout
      · simpa [listOp, hs] using And.intro hg hn

theorem hasFieldB_error {j : Json} {f : String} (h : hasFieldB j f = false) :
    ∃ er, jIndex j f = Except.error er := by
  unfold hasFieldB at h
  cases hj : jIndex j f with
  | ok v => rw [hj] at h; simp [exOk] at h
  | error er => exact ⟨er, rfl⟩

theorem resourcesFor_error (kind label descPre field : String)
    (l : List (String × Json)) (p : String × Json) (hp : p ∈ l)
    (hm : hasFieldB p.2 field = false) :
    ∃ e, resourcesFor kind label descPre field l = Except.error e := by
  induction l with
  | nil => simp at hp
  | cons q rest ih =>
      rcases List.mem_cons.mp hp with rfl | hmem
      · obtain ⟨er, her⟩ := hasFieldB_error hm
        exact ⟨er, by simp [resourcesFor, her, Bind.bind, Except.bind]⟩
      · obtain ⟨q1, q2⟩ := q
        cases hv : jIndex q2 field with
        | error er =>
            exact ⟨er, by simp [resourcesFor, hv, Bind.bind, Except.bind]⟩
        | ok v =>
            obtain ⟨er, her⟩ := ih hmem
            exact ⟨er, by simp [resourcesFor, hv, her, Bind.bind, Except.bind]⟩

/-- C8: for every well-formed address `threat://<kind>/<id>` whose kind is
one of the three supported segments, a cache miss is answered with the
serialized empty JSON object `{}`, not a fault. -/
theorem c8_cache_miss_read (k : EntityKind) (c : Cache) (i : String)
    (hi : validId i) (hmiss : dictGet (k.store c) i = none) :
    handle_read_resource c (threatUri k.seg i) = Except.ok "\x7b\x7d" := by
  cases k <;>
    simp only [EntityKind.seg, EntityKind.store] at hmiss ⊢ <;>
    rw [handle_read_threat _ _ _ (by decide) hi, hmiss] <;>
    rfl

/-- C8 witness: reading `threat://report/abc` from the empty cache yields
`{}`. -/
theorem c8_cache_miss_read_witness :
    handle_read_resource emptyCache (threatUri "report" "abc") =
      Except.ok "\x7b\x7d" :=
  c8_cache_miss_read EntityKind.report emptyCache "abc" (by decide) rfl

/-- C7: an address whose scheme is not `threat` is rejected with the
invalid-address condition, and a `threat` address with an unrecognized kind
segment is rejected with the unknown-resource-type condition; neither
produces a result document. -/
theorem c7_decoding_failures :
    (∀ (c : Cache) (uri : Uri), uri.scheme ≠ "threat" →
      handle_read_resource c uri =
        Except.error (Err.invalidAddress uri.scheme)) ∧
    (∀ (c : Cache) (kind i : String), validId kind → validId i →
      kind ≠ "report" → kind ≠ "actor" → kind ≠ "source" →
      handle_read_resource c (threatUri kind i) =
        Except.error (Err.unknownResourceType kind)) := by
  constructor
  · intro c uri h
    simp [handle_read_resource, h]
  · intro c kind i hk hi h1 h2 h3
    rw [handle_read_threat c kind i hk hi]
    simp [h1, h2, h3]

/-- C7 witness: `foo://report/1` fails as invalid address and
`threat://widget/1` fails as unknown resource type. -/
theorem c7_decoding_failures_witness :
    handle_read_resource emptyCache ⟨"foo", "/report/1"⟩ =
      Except.error (Err.invalidAddress "foo") ∧
    handle_read_resource emptyCache (threatUri "widget" "1") =
      Except.error (Err.unknownResourceType "widget") :=
  ⟨c7_decoding_failures.1 emptyCache ⟨"foo", "/report/1"⟩ (by decide),
   c7_decoding_failures.2 emptyCache "widget" "1" (by decide) (by decide)
     (by decide) (by decide) (by decide)⟩

/-- C9: dispatching any tool name outside the fixed six fails with the
unknown-tool condition, for all arguments, with no request and no cache
change. -/
theorem c9_unknown_tool (name : String) (client : Client)
    (args : List (String × String)) (c : Cache)
    (h : name ∉ ["fetch_latest_threat_reports", "fetch_threat_report_details",
      "fetch_threat_actors", "fetch_threat_actor_details", "fetch_sources",
      "fetch_source_details"]) :
    handle_call_tool client name args c =
      ⟨c, [], Except.error (Err.unknownTool name)⟩ := by
  simp only [List.mem_cons, List.not_mem_nil, or_false, not_or] at h
  obtain ⟨h1, h2, h3, h4, h5, h6⟩ := h
  simp [handle_call_tool, h1, h2, h3, h4, h5, h6]

/-- C9 witness: the name `frobnicate` is rejected as an unknown tool. -/
theorem c9_unknown_tool_witness :
    handle_call_tool (envClient Json.null) "frobnicate" [] emptyCache =
      ⟨emptyCache, [], Except.error (Err.unknownTool "frobnicate")⟩ :=
  c9_unknown_tool "frobnicate" (envClient Json.null) [] emptyCache (by decide)

/-- C4: a detail tool invoked without its required identifier argument
fails with the missing-argument condition, requests no URL, and leaves the
cache exactly as it was. -/
theorem c4_missing_argument (k : EntityKind) (client : Client)
    (args : List (String × String)) (c : Cache)
    (h : dictGet args k.detailArg = none) :
    handle_call_tool client k.detailTool args c =
      ⟨c, [], Except.error (Err.missingArgument k.detailArg)⟩ := by
  cases k <;>
    simp only [EntityKind.detailTool, EntityKind.detailArg] at h ⊢ <;>
    simp [handle_call_tool, h]

/-- C4 witness: `fetch_threat_report_details` with no arguments fails with
the missing-argument condition and zero upstream calls. -/
theorem c4_missing_argument_witness :
    handle_call_tool (envClient Json.null) "fetch_threat_report_details" []
      emptyCache =
      ⟨emptyCache, [], Except.error (Err.missingArgument "report_id")⟩ :=
  c4_missing_argument EntityKind.report (envClient Json.null) [] emptyCache rfl

/-- C1: after a detail fetch for kind `k` and identifier `i` whose upstream
response has status 200 and record `d` under `data`, reading
`threat://<k>/<i>` returns exactly the 2-space-indented JSON serialization
of `d` — the content written into the cache. -/
theorem c1_roundtrip (k : EntityKind) (client : Client)
    (args : List (String × String)) (c : Cache) (i : String) (d : Json)
    (hi : validId i) (harg : dictGet args k.detailArg = some i)
    (hs : (client (k.detailUrl i)).status_code = 200)
    (hd : jGetD (client (k.detailUrl i)).body "data" (Json.obj .nil) = d) :
    handle_read_resource (handle_call_tool client k.detailTool args c).cache
      (threatUri k.seg i) = Except.ok (pyDumps d) := by
  rw [detail_step k client args c i harg (validId_ne_empty hi)]
  have hcache :
      (detailOp c (k.detailUrl i) (client (k.detailUrl i)) k.put i).cache
        = k.put c i d := by
    simp [detailOp, hs, dataObject, hd]
  rw [hcache]
  have hk : validId k.seg := by cases k <;> decide
  rw [handle_read_threat _ _ _ hk hi]
  cases k <;>
    simp [EntityKind.seg, EntityKind.put, putReport, putActor, putSource,
      dictGet_dictSet_self]

/-- C1 witness: fetching report `r1` whose upstream record is
`\x7b"id": "r1", "title": "Report One"\x7d` and then reading
`threat://report/r1` returns that record's pretty-printed JSON. -/
theorem c1_roundtrip_witness :
    handle_read_resource
      (handle_call_tool
        (envClient (Json.obj (.cons "id" (Json.str "r1")
          (.cons "title" (Json.str "Report One") .nil))))
        "fetch_threat_report_details" [("report_id", "r1")] emptyCache).cache
      (threatUri "report" "r1")
      = Except.ok (pyDumps (Json.obj (.cons "id" (Json.str "r1")
          (.cons "title" (Json.str "Report One") .nil)))) :=
  c1_roundtrip EntityKind.report
    (envClient (Json.obj (.cons "id" (Json.str "r1")
      (.cons "title" (Json.str "Report One") .nil))))
    [("report_id", "r1")] emptyCache "r1"
    (Json.obj (.cons "id" (Json.str "r1")
      (.cons "title" (Json.str "Report One") .nil)))
    (by decide) rfl rfl rfl

/-- C10: a successful detail fetch for kind `k` and identifier `i` updates
exactly the entry `(k, i)` — to the response's `data` object, `\x7b\x7d`
when `data` is absent, even over a previously cached entry — and leaves
every other entry of every kind, and the positions of existing keys,
unchanged (a new key is appended). -/
theorem c10_detail_frame (k : EntityKind) (client : Client)
    (args : List (String × String)) (c : Cache) (i : String)
    (harg : dictGet args k.detailArg = some i) (hne : i ≠ "")
    (hs : (client (k.detailUrl i)).status_code = 200) :
    (k.store (handle_call_tool client k.detailTool args c).cache
        = dictSet (k.store c) i (dataObject (client (k.detailUrl i)))) ∧
    (∀ k2 : EntityKind, k2 ≠ k →
      k2.store (handle_call_tool client k.detailTool args c).cache
        = k2.store c) ∧
    (dictGet (k.store (handle_call_tool client k.detailTool args c).cache) i
        = some (dataObject (client (k.detailUrl i)))) ∧
    (∀ j : String, j ≠ i →
      dictGet (k.store (handle_call_tool client k.detailTool args c).cache) j
        = dictGet (k.store c) j) ∧
    ((k.store (handle_call_tool client k.detailTool args c).cache).map
        Prod.fst
      = if i ∈ (k.store c).map Prod.fst then (k.store c).map Prod.fst
        else (k.store c).map Prod.fst ++ [i]) := by
  rw [detail_step k client args c i harg hne]
  have hcache :
      (detailOp c (k.detailUrl i) (client (k.detailUrl i)) k.put i).cache
        = k.put c i (dataObject (client (k.detailUrl i))) := by
    simp [detailOp, hs]
  rw [hcache]
  refine ⟨?_, ?_, ?_, ?_, ?_⟩
  · rw [store_put]
    simp
  · intro k2 hk2
    rw [store_put]
    simp [hk2]
  · rw [store_put]
    simp [dictGet_dictSet_self]
  · intro j hj
    rw [store_put]
    simp [dictGet_dictSet_ne _ _ _ _ hj]
  · rw [store_put]
    simp [dictSet_keys]

/-- C10 witness: with report `a` already cached, a detail fetch of actor
`x` whose response lacks `data` writes `\x7b\x7d` under `("actor", "x")`
only, leaving the report map untouched and appending the new key. -/
theorem c10_detail_frame_witness :
    (EntityKind.actor.store
        (handle_call_tool (errClient 200 "") "fetch_threat_actor_details"
          [("actor_id", "x")]
          ⟨[("a", Json.num 1)], [], []⟩).cache
      = dictSet ([] : List (String × Json)) "x"
          (dataObject (errClient 200 "" "https://orkl.eu/api/v1/ta/entry/x"))) ∧
    (∀ k2 : EntityKind, k2 ≠ EntityKind.actor →
      k2.store
        (handle_call_tool (errClient 200 "") "fetch_threat_actor_details"
          [("actor_id", "x")]
          ⟨[("a", Json.num 1)], [], []⟩).cache
        = k2.store ⟨[("a", Json.num 1)], [], []⟩) ∧
    (dictGet
        (EntityKind.actor.store
          (handle_call_tool (errClient 200 "") "fetch_threat_actor_details"
            [("actor_id", "x")]
            ⟨[("a", Json.num 1)], [], []⟩).cache) "x"
      = some (dataObject (errClient 200 "" "https://orkl.eu/api/v1/ta/entry/x"))) ∧
    (∀ j : String, j ≠ "x" →
      dictGet
        (EntityKind.actor.store
          (handle_call_tool (errClient 200 "") "fetch_threat_actor_details"
            [("actor_id", "x")]
            ⟨[("a", Json.num 1)], [], []⟩).cache) j
        = dictGet (EntityKind.actor.store ⟨[("a", Json.num 1)], [], []⟩) j) ∧
    ((EntityKind.actor.store
        (handle_call_tool (errClient 200 "") "fetch_threat_actor_details"
          [("actor_id", "x")]
          ⟨[("a", Json.num 1)], [], []⟩).cache).map Prod.fst
      = if "x" ∈ (EntityKind.actor.store
            ⟨[("a", Json.num 1)], [], []⟩).map Prod.fst
        then (EntityKind.actor.store ⟨[("a", Json.num 1)], [], []⟩).map
          Prod.fst
        else (EntityKind.actor.store ⟨[("a", Json.num 1)], [], []⟩).map
          Prod.fst ++ ["x"]) :=
  c10_detail_frame EntityKind.actor (errClient 200 "")
    [("actor_id", "x")] ⟨[("a", Json.num 1)], [], []⟩ "x" rfl (by decide) rfl

/-- C3: for each of the six tools (any kind, list or detail shape), a
non-success upstream status is recovered into a normal text result —
`Error: <status> <body>` — with exactly one request made and the cache
left exactly as it was; no fault is raised. -/
theorem c3_upstream_error (k : EntityKind) (isList : Bool) (client : Client)
    (args : List (String × String)) (c : Cache)
    (h : argsOkFor k isList args)
    (hs : (client (requestUrlOf k isList args)).status_code ≠ 200) :
    handle_call_tool client (toolNameOf k isList) args c =
      ⟨c, [requestUrlOf k isList args],
       Except.ok [⟨"text",
         "Error: " ++
           toString (client (requestUrlOf k isList args)).status_code ++
           " " ++ (client (requestUrlOf k isList args)).text⟩]⟩ := by
  cases isList with
  | false =>
      rcases h with h | ⟨i, hi, hne⟩
      · simp at h
      · have hurl : requestUrlOf k false args = k.detailUrl i := by
          simp [requestUrlOf, hi]
        rw [hurl] at hs ⊢
        rw [show toolNameOf k false = k.detailTool from rfl]
        rw [detail_step k client args c i hi hne]
        simp [detailOp, hs]
  | true =>
      rw [show toolNameOf k true = k.listTool from rfl]
      rw [show requestUrlOf k true args = k.listUrl from rfl] at hs ⊢
      rw [list_step]
      simp [listOp, hs]

/-- C3 witness: `fetch_sources` against a stub answering 500 with body
`boom` returns the single text block `Error: 500 boom` with the cache
unchanged. -/
theorem c3_upstream_error_witness :
    handle_call_tool (errClient 500 "boom") "fetch_sources" [] emptyCache =
      ⟨emptyCache, ["https://orkl.eu/api/v1/source/entries"],
       Except.ok [⟨"text", "Error: 500 boom"⟩]⟩ :=
  c3_upstream_error EntityKind.source true (errClient 500 "boom") []
    emptyCache (Or.inl rfl) (by decide)

/-- C6: a list operation whose upstream response has success status writes
every element of the `data` array into its kind's cache map keyed by the
element's own `id` field, and returns one text block that newline-joins
one `ID: <id>, <label>: <display field>` summary line per element in array
order; a response without a `data` field yields the empty text and no
cache writes, not a fault. -/
theorem c6_list_success (k : EntityKind) (client : Client)
    (args : List (String × String)) (c : Cache)
    (hs : (client k.listUrl).status_code = 200)
    (hw : (dataItems (client k.listUrl)).all (elementOkB k.field) = true) :
    handle_call_tool client k.listTool args c =
      ⟨expectedListCache k.put c (dataItems (client k.listUrl)), [k.listUrl],
       Except.ok [⟨"text",
         expectedListText k.label k.field (dataItems (client k.listUrl))⟩]⟩ := by
  rw [list_step]
  have hall := List.all_eq_true.mp hw
  have hid : ∀ e ∈ dataItems (client k.listUrl), hasFieldB e "id" = true :=
    fun e he => ((Bool.and_eq_true _ _).mp
      (by rw [← elementOkB]; exact hall e he)).1
  simp [listOp, hs, cacheLoop_all_ok k.put _ hid c,
    summaryLines_all_ok k.label k.field _ hall, expectedListText]

/-- C6 witness: `fetch_latest_threat_reports` on a stub returning two
records writes both under their ids and returns the two summary lines
joined by a newline. -/
theorem c6_list_success_witness :
    handle_call_tool
      (envClient (Json.arr (.cons
        (Json.obj (.cons "id" (Json.str "r1")
          (.cons "title" (Json.str "Report One") .nil)))
        (.cons (Json.obj (.cons "id" (Json.str "r2")
          (.cons "title" (Json.str "Report Two") .nil))) .nil))))
      "fetch_latest_threat_reports" [] emptyCache =
      ⟨⟨[("r1", Json.obj (.cons "id" (Json.str "r1")
            (.cons "title" (Json.str "Report One") .nil))),
         ("r2", Json.obj (.cons "id" (Json.str "r2")
            (.cons "title" (Json.str "Report Two") .nil)))], [], []⟩,
       ["https://orkl.eu/api/v1/library/entries?limit=5&order_by=created_at&order=desc"],
       Except.ok [⟨"text", "ID: r1, Title: Report One\nID: r2, Title: Report Two"⟩]⟩ :=
  c6_list_success EntityKind.report
    (envClient (Json.arr (.cons
      (Json.obj (.cons "id" (Json.str "r1")
        (.cons "title" (Json.str "Report One") .nil)))
      (.cons (Json.obj (.cons "id" (Json.str "r2")
        (.cons "title" (Json.str "Report Two") .nil))) .nil))))
    [] emptyCache rfl (by decide)

/-- C5: for every cache state reachable from the initial empty cache by
successful list-operation calls, `list_resources` succeeds and returns
exactly one resource per cached entity — all reports, then all actors,
then all sources, each map in insertion order of first write (`dictSet`
keeps an existing key's position), named `Threat Report: <title>` /
`Threat Actor: <main_name>` / `Source: <name>` — and each map's keys are
pairwise distinct, so each entity appears exactly once. -/
theorem c5_listing (c : Cache) (h : ListReached c) :
    handle_list_resources c = Except.ok (expectedResources c) ∧
      NodupCache c := by
  obtain ⟨hg, hn⟩ := listReached_inv c h
  refine ⟨?_, hn⟩
  have h1 := hg EntityKind.report
  have h2 := hg EntityKind.actor
  have h3 := hg EntityKind.source
  simp only [EntityKind.field, EntityKind.store] at h1 h2 h3
  simp [handle_list_resources, resourcesFor_ok _ _ _ _ _ h1,
    resourcesFor_ok _ _ _ _ _ h2, resourcesFor_ok _ _ _ _ _ h3,
    expectedResources, Bind.bind, Except.bind]

/-- C5 witness: after one successful `fetch_latest_threat_reports` call
that returned one record, `list_resources` lists exactly that report. -/
theorem c5_listing_witness :
    handle_list_resources
      (handle_call_tool
        (envClient (Json.arr (.cons (Json.obj (.cons "id" (Json.str "r1")
          (.cons "title" (Json.str "Report One") .nil))) .nil)))
        "fetch_latest_threat_reports" [] emptyCache).cache =
      Except.ok (expectedResources
        (handle_call_tool
          (envClient (Json.arr (.cons (Json.obj (.cons "id" (Json.str "r1")
            (.cons "title" (Json.str "Report One") .nil))) .nil)))
          "fetch_latest_threat_reports" [] emptyCache).cache) ∧
    NodupCache
      (handle_call_tool
        (envClient (Json.arr (.cons (Json.obj (.cons "id" (Json.str "r1")
          (.cons "title" (Json.str "Report One") .nil))) .nil)))
        "fetch_latest_threat_reports" [] emptyCache).cache :=
  c5_listing _
    (ListReached.step EntityKind.report
      (envClient (Json.arr (.cons (Json.obj (.cons "id" (Json.str "r1")
        (.cons "title" (Json.str "Report One") .nil))) .nil)))
      [] emptyCache ListReached.init rfl)

/-- C2 counterexample: the cache can hold a report entry without its
display field (a detail fetch whose response lacks `data` stores
`\x7b\x7d`), and `list_resources` then fails with a `KeyError` on `title`
instead of tolerating the missing field. -/
theorem c2_counterexample :
    handle_list_resources ⟨[("r1", Json.obj .nil)], [], []⟩ =
      Except.error (Err.keyError "title") := rfl

/-- C2 (amended): entries are stored pass-through — a successful detail
fetch stores the upstream `data` record itself under its key, so an
entry's display field is populated exactly when the upstream record
provides it; but when any cached entry lacks its kind's display field,
`list_resources` fails with a fault rather than rendering a placeholder or
skipping the entry. -/
theorem c2_display_field :
    (∀ (k : EntityKind) (client : Client) (args : List (String × String))
      (c : Cache) (i : String),
      dictGet args k.detailArg = some i → i ≠ "" →
      (client (k.detailUrl i)).status_code = 200 →
      dictGet (k.store (handle_call_tool client k.detailTool args c).cache) i
        = some (dataObject (client (k.detailUrl i)))) ∧
    (∀ (c : Cache) (k : EntityKind) (p : String × Json), p ∈ k.store c →
      hasFieldB p.2 k.field = false →
      ∃ e, handle_list_resources c = Except.error e) := by
  constructor
  · intro k client args c i harg hne hs
    rw [detail_step k client args c i harg hne]
    have hcache :
        (detailOp c (k.detailUrl i) (client (k.detailUrl i)) k.put i).cache
          = k.put c i (dataObject (client (k.detailUrl i))) := by
      simp [detailOp, hs]
    rw [hcache, store_put]
    simp [dictGet_dictSet_self]
  · intro c k p hp hm
    cases k with
    | report =>
        obtain ⟨e, he⟩ := resourcesFor_error "report" "Threat Report: "
          "Threat report titled " "title" c.threat_reports p hp hm
        exact ⟨e, by simp [handle_list_resources, he, Bind.bind, Except.bind]⟩
    | actor =>
        cases h1 : resourcesFor "report" "Threat Report: "
            "Threat report titled " "title" c.threat_reports with
        | error er =>
            exact ⟨er, by
              simp [handle_list_resources, h1, Bind.bind, Except.bind]⟩
        | ok rs =>
            obtain ⟨e, he⟩ := resourcesFor_error "actor" "Threat Actor: "
              "Threat actor known as " "main_name" c.threat_actors p hp hm
            exact ⟨e, by
              simp [handle_list_resources, h1, he, Bind.bind, Except.bind]⟩
    | source =>
        cases h1 : resourcesFor "report" "Threat Report: "
            "Threat report titled " "title" c.threat_reports with
        | error er =>
            exact ⟨er, by
              simp [handle_list_resources, h1, Bind.bind, Except.bind]⟩
        | ok rs =>
            cases h2 : resourcesFor "actor" "Threat Actor: "
                "Threat actor known as " "main_name" c.threat_actors with
            | error er =>
                exact ⟨er, by
                  simp [handle_list_resources, h1, h2, Bind.bind,
                    Except.bind]⟩
            | ok as2 =>
                obtain ⟨e, he⟩ := resourcesFor_error "source" "Source: "
                  "Source " "name" c.sources p hp hm
                exact ⟨e, by
                  simp [handle_list_resources, h1, h2, he, Bind.bind,
                    Except.bind]⟩

/-- C2 (amended) witness: a detail fetch stores the upstream record `7`
under `("report", "r1")` verbatim, and a cache whose report entry lacks
`title` makes `list_resources` fail. -/
theorem c2_display_field_witness :
    dictGet (EntityKind.report.store
        (handle_call_tool (envClient (Json.num 7))
          "fetch_threat_report_details" [("report_id", "r1")]
          emptyCache).cache) "r1" = some (Json.num 7) ∧
    ∃ e, handle_list_resources ⟨[("x", Json.obj .nil)], [], []⟩ =
      Except.error e :=
  ⟨c2_display_field.1 EntityKind.report (envClient (Json.num 7))
      [("report_id", "r1")] emptyCache "r1" rfl (by decide) rfl,
   c2_display_field.2 ⟨[("x", Json.obj .nil)], [], []⟩ EntityKind.report
      ("x", Json.obj .nil) (by simp [EntityKind.store]) rfl⟩

end Orkl
